import Mathlib

/-!
Verification of the client-side journal encryption subsystem of the mental-health
application. The definitions are a shallow embedding of the WebCrypto helpers and
of the journal context in src/mental-health-app/src/App.jsx, together with the
POST /journal handler of src/backend/index.js. Platform primitives (WebCrypto
PBKDF2 and AES-GCM, crypto.getRandomValues, TextEncoder and TextDecoder) are
modeled as idealized deterministic functions; randomness is modeled by an
explicit entropy stream passed to the operations that draw random bytes.
-/

namespace MentalHealth

/-! ## Journal entry codec: base64, the semantics of btoa and atob -/

/-- The base64 alphabet used by btoa and atob. -/
def b64Alphabet : List Char :=
  "ABCDEFGHIJKLMNOPQRSTUVWXYZabcdefghijklmnopqrstuvwxyz0123456789+/".data

/-- The alphabet character for a six-bit group. -/
def b64Char (n : Nat) : Char := b64Alphabet.getD n 'A'

/-- Auxiliary left-to-right scan locating a character in a list. -/
def b64IndexAux : List Char → Nat → Char → Option Nat
  | [], _, _ => none
  | a :: rest, i, c => if a = c then some i else b64IndexAux rest (i + 1) c

/-- The position of a character in the base64 alphabet, none when the character
is not in the alphabet. -/
def b64Index (c : Char) : Option Nat := b64IndexAux b64Alphabet 0 c

/-- btoa processing of a byte list in groups of three bytes, emitting four base64
characters per group with trailing padding for a short final group. -/
def b64EncodeChunks : List Nat → List Char
  | [] => []
  | [b0] => [b64Char (b0 / 4), b64Char (b0 % 4 * 16), '=', '=']
  | [b0, b1] => [b64Char (b0 / 4), b64Char (b0 % 4 * 16 + b1 / 16), b64Char (b1 % 16 * 4), '=']
  | b0 :: b1 :: b2 :: rest =>
      b64Char (b0 / 4) :: b64Char (b0 % 4 * 16 + b1 / 16) ::
      b64Char (b1 % 16 * 4 + b2 / 64) :: b64Char (b2 % 64) :: b64EncodeChunks rest

/-- Model of bufToB64 from App.jsx: the bytes are turned into a binary string and
encoded with btoa. -/
def bufToB64 (buf : List Nat) : String := String.mk (b64EncodeChunks buf)

/-- The padding-stripping step of atob: remove up to two trailing padding
characters. -/
def dropPad : List Char → List Char
  | [] => []
  | [c] => if c = '=' then [] else [c]
  | [c1, c2] => if c2 = '=' then (if c1 = '=' then [] else [c1]) else [c1, c2]
  | c :: rest => c :: dropPad rest

/-- atob processing of the stripped character list in groups of four characters,
with a short final group of two or three characters producing one or two bytes; a
character outside the alphabet, or a leftover group of one character, fails. -/
def b64DecodeChunks : List Char → Option (List Nat)
  | [] => some []
  | [c0, c1] =>
      match b64Index c0, b64Index c1 with
      | some g0, some g1 => some [g0 * 4 + g1 / 16]
      | _, _ => none
  | [c0, c1, c2] =>
      match b64Index c0, b64Index c1, b64Index c2 with
      | some g0, some g1, some g2 => some [g0 * 4 + g1 / 16, g1 % 16 * 16 + g2 / 4]
      | _, _, _ => none
  | c0 :: c1 :: c2 :: c3 :: rest =>
      match b64Index c0, b64Index c1, b64Index c2, b64Index c3, b64DecodeChunks rest with
      | some g0, some g1, some g2, some g3, some bs =>
          some ((g0 * 4 + g1 / 16) :: (g1 % 16 * 16 + g2 / 4) :: (g2 % 4 * 64 + g3) :: bs)
      | _, _, _, _, _ => none
  | [_] => none

/-- ASCII whitespace in the sense of the forgiving-base64 decode of atob: tab,
line feed, form feed, carriage return and space. -/
def isAsciiWhitespace (c : Char) : Bool :=
  c = '\t' || c = '\n' || c = '\x0c' || c = '\r' || c = ' '

/-- Model of b64ToBuf from App.jsx, following the forgiving-base64 semantics of
atob: first remove all ASCII whitespace; then, when the length is a multiple of
four, strip up to two trailing padding characters; then decode, where any
remaining character outside the alphabet fails. -/
def b64ToBuf (s : String) : Option (List Nat) :=
  let cs := s.data.filter (fun c => !isAsciiWhitespace c)
  b64DecodeChunks (if cs.length % 4 = 0 then dropPad cs else cs)

/-! ### Codec lemmas -/

theorem b64Index_b64Char : ∀ n, n < 64 → b64Index (b64Char n) = some n := by decide

theorem b64Char_ne_pad : ∀ n, n < 64 → b64Char n ≠ '=' := by decide

theorem b64Char_not_ws_lt : ∀ n, n < 64 → isAsciiWhitespace (b64Char n) = false := by decide

theorem b64Char_not_ws (n : Nat) : isAsciiWhitespace (b64Char n) = false := by
  rcases Nat.lt_or_ge n 64 with h | h
  · exact b64Char_not_ws_lt n h
  · have hlen : b64Alphabet.length ≤ n := by
      have h64 : b64Alphabet.length = 64 := rfl
      omega
    rw [b64Char, List.getD_eq_getElem?_getD, List.getElem?_eq_none hlen]
    rfl

theorem not_ws_of_mem_encode (buf : List Nat) (c : Char)
    (hc : c ∈ b64EncodeChunks buf) : isAsciiWhitespace c = false := by
  match buf with
  | [] => simp [b64EncodeChunks] at hc
  | [b0] =>
    simp only [b64EncodeChunks, List.mem_cons, List.not_mem_nil, or_false] at hc
    rcases hc with rfl | rfl | rfl | rfl
    · exact b64Char_not_ws _
    · exact b64Char_not_ws _
    · rfl
    · rfl
  | [b0, b1] =>
    simp only [b64EncodeChunks, List.mem_cons, List.not_mem_nil, or_false] at hc
    rcases hc with rfl | rfl | rfl | rfl
    · exact b64Char_not_ws _
    · exact b64Char_not_ws _
    · exact b64Char_not_ws _
    · rfl
  | b0 :: b1 :: b2 :: rest =>
    simp only [b64EncodeChunks, List.mem_cons] at hc
    rcases hc with rfl | rfl | rfl | rfl | hmem
    · exact b64Char_not_ws _
    · exact b64Char_not_ws _
    · exact b64Char_not_ws _
    · exact b64Char_not_ws _
    · exact not_ws_of_mem_encode rest c hmem

theorem filter_b64EncodeChunks (buf : List Nat) :
    (b64EncodeChunks buf).filter (fun c => !isAsciiWhitespace c) = b64EncodeChunks buf := by
  rw [List.filter_eq_self]
  intro c hc
  simp [not_ws_of_mem_encode buf c hc]

theorem length_b64EncodeChunks_mod (buf : List Nat) :
    (b64EncodeChunks buf).length % 4 = 0 := by
  match buf with
  | [] => rfl
  | [b0] => simp [b64EncodeChunks]
  | [b0, b1] => simp [b64EncodeChunks]
  | b0 :: b1 :: b2 :: rest =>
    have ih := length_b64EncodeChunks_mod rest
    simp only [b64EncodeChunks, List.length_cons]
    omega

theorem four_le_length_b64EncodeChunks (buf : List Nat) (h : buf ≠ []) :
    4 ≤ (b64EncodeChunks buf).length := by
  match buf with
  | [] => exact absurd rfl h
  | [b0] => simp [b64EncodeChunks]
  | [b0, b1] => simp [b64EncodeChunks]
  | b0 :: b1 :: b2 :: rest => simp [b64EncodeChunks]

theorem dropPad_cons (c : Char) (cs : List Char) (h : 2 ≤ cs.length) :
    dropPad (c :: cs) = c :: dropPad cs := by
  match cs with
  | [] => simp at h
  | [c1] => simp at h
  | c1 :: c2 :: rest => rfl

theorem b64DecodeChunks_dropPad_encode (buf : List Nat) (h : ∀ b ∈ buf, b < 256) :
    b64DecodeChunks (dropPad (b64EncodeChunks buf)) = some buf := by
  match buf with
  | [] => rfl
  | [b0] =>
    have hb0 : b0 < 256 := h b0 (by simp)
    have h0 : b0 / 4 < 64 := by omega
    have h1 : b0 % 4 * 16 < 64 := by omega
    have hdrop : dropPad (b64EncodeChunks [b0]) = [b64Char (b0 / 4), b64Char (b0 % 4 * 16)] := by
      simp [b64EncodeChunks, dropPad]
    rw [hdrop]
    simp only [b64DecodeChunks, b64Index_b64Char _ h0, b64Index_b64Char _ h1]
    simp only [Option.some.injEq, List.cons.injEq, and_true]
    omega
  | [b0, b1] =>
    have hb0 : b0 < 256 := h b0 (by simp)
    have hb1 : b1 < 256 := h b1 (by simp)
    have h0 : b0 / 4 < 64 := by omega
    have h1 : b0 % 4 * 16 + b1 / 16 < 64 := by omega
    have h2 : b1 % 16 * 4 < 64 := by omega
    have hdrop : dropPad (b64EncodeChunks [b0, b1]) =
        [b64Char (b0 / 4), b64Char (b0 % 4 * 16 + b1 / 16), b64Char (b1 % 16 * 4)] := by
      simp [b64EncodeChunks, dropPad, b64Char_ne_pad _ h2]
    rw [hdrop]
    simp only [b64DecodeChunks, b64Index_b64Char _ h0, b64Index_b64Char _ h1,
      b64Index_b64Char _ h2]
    simp only [Option.some.injEq, List.cons.injEq, and_true]
    constructor
    · omega
    · omega
  | b0 :: b1 :: b2 :: rest =>
    have hb0 : b0 < 256 := h b0 (by simp)
    have hb1 : b1 < 256 := h b1 (by simp)
    have hb2 : b2 < 256 := h b2 (by simp)
    have h0 : b0 / 4 < 64 := by omega
    have h1 : b0 % 4 * 16 + b1 / 16 < 64 := by omega
    have h2 : b1 % 16 * 4 + b2 / 64 < 64 := by omega
    have h3 : b2 % 64 < 64 := by omega
    have ih := b64DecodeChunks_dropPad_encode rest
      (fun b hb => h b (List.mem_cons_of_mem _ (List.mem_cons_of_mem _ (List.mem_cons_of_mem _ hb))))
    cases rest with
    | nil =>
      have hdrop : dropPad (b64EncodeChunks [b0, b1, b2]) =
          [b64Char (b0 / 4), b64Char (b0 % 4 * 16 + b1 / 16),
           b64Char (b1 % 16 * 4 + b2 / 64), b64Char (b2 % 64)] := by
        simp [b64EncodeChunks, dropPad, b64Char_ne_pad _ h3]
      rw [hdrop]
      simp only [b64DecodeChunks, b64Index_b64Char _ h0, b64Index_b64Char _ h1,
        b64Index_b64Char _ h2, b64Index_b64Char _ h3]
      simp only [Option.some.injEq, List.cons.injEq, and_true]
      refine ⟨by omega, by omega, by omega⟩
    | cons r rs =>
      have hlen : 4 ≤ (b64EncodeChunks (r :: rs)).length :=
        four_le_length_b64EncodeChunks _ (by simp)
      have henc : b64EncodeChunks (b0 :: b1 :: b2 :: r :: rs) =
          b64Char (b0 / 4) :: b64Char (b0 % 4 * 16 + b1 / 16) ::
          b64Char (b1 % 16 * 4 + b2 / 64) :: b64Char (b2 % 64) ::
          b64EncodeChunks (r :: rs) := rfl
      rw [henc, dropPad_cons _ _ (by simp only [List.length_cons]; omega),
        dropPad_cons _ _ (by simp only [List.length_cons]; omega),
        dropPad_cons _ _ (by simp only [List.length_cons]; omega),
        dropPad_cons _ _ (by omega)]
      simp only [b64DecodeChunks, b64Index_b64Char _ h0, b64Index_b64Char _ h1,
        b64Index_b64Char _ h2, b64Index_b64Char _ h3, ih]
      simp only [Option.some.injEq, List.cons.injEq, and_true]
      refine ⟨by omega, by omega, by omega⟩

/-- The codec round trip at the level of strings produced by bufToB64. -/
theorem b64ToBuf_bufToB64 (buf : List Nat) (h : ∀ b ∈ buf, b < 256) :
    b64ToBuf (bufToB64 buf) = some buf := by
  have hmod : (b64EncodeChunks buf).length % 4 = 0 := length_b64EncodeChunks_mod buf
  simp only [b64ToBuf, bufToB64, filter_b64EncodeChunks, hmod, if_pos]
  exact b64DecodeChunks_dropPad_encode buf h

/-- Model of strToBuf from App.jsx, the TextEncoder step: the byte content of a
string is modeled as its sequence of code points, an injective representation
sufficient for the idealized cipher. -/
def strToBuf (s : String) : List Nat := s.data.map Char.toNat

/-- Model of bufToStr from App.jsx, the TextDecoder step inverse to strToBuf. -/
def bufToStr (b : List Nat) : String := String.mk (b.map Char.ofNat)

theorem bufToStr_strToBuf (s : String) : bufToStr (strToBuf s) = s := by
  simp only [bufToStr, strToBuf, List.map_map, Function.comp_def, Char.ofNat_toNat,
    List.map_id_fun', id]

/-- A key produced by the key derivation unit. WebCrypto PBKDF2-SHA256 is a
deterministic function of the passphrase and the salt; the derived key is
modeled as the record of the inputs and parameters that determine it, an
idealized injective key-derivation function. -/
structure DerivedKey where
  passphrase : String
  salt : List Nat
  iterations : Nat
  hash : String
  bits : Nat
deriving DecidableEq, Repr

/-- Model of deriveKey from App.jsx: PBKDF2 with 100000 iterations of SHA-256
over the passphrase and salt, producing a 256-bit AES-GCM key. The source
performs no input validation of the passphrase or the salt, and neither does
the model: every input, including the empty passphrase and a salt of any
length, deterministically yields a key. -/
def deriveKey (passphrase : String) (salt : List Nat) : DerivedKey :=
  { passphrase := passphrase, salt := salt, iterations := 100000,
    hash := "SHA-256", bits := 256 }

/-- An AES-GCM ciphertext of the idealized authenticated cipher: the ciphertext
value determines, and its authentication tag is bound to, the key, the iv and
the plaintext that produced it. -/
structure GcmCiphertext where
  key : DerivedKey
  iv : List Nat
  plaintext : List Nat
deriving DecidableEq, Repr

/-- Model of crypto.subtle.encrypt with AES-GCM. -/
def subtleEncrypt (key : DerivedKey) (iv : List Nat) (pt : List Nat) : GcmCiphertext :=
  { key := key, iv := iv, plaintext := pt }

/-- Model of crypto.subtle.decrypt with AES-GCM: authentication succeeds exactly
when the supplied key and iv are the ones the ciphertext was produced with;
otherwise the operation fails, and the failure does not reveal which input was
wrong. -/
def subtleDecrypt (key : DerivedKey) (iv : List Nat) (ct : GcmCiphertext) :
    Option (List Nat) :=
  if ct.key = key ∧ ct.iv = iv then some ct.plaintext else none

/-- Model of crypto.getRandomValues: reading n bytes of an entropy stream at a
given offset; a Uint8Array cell holds its value reduced modulo 256. -/
def randomBytes (rand : Nat → Nat) (off n : Nat) : List Nat :=
  (List.range n).map (fun i => rand (off + i) % 256)

theorem mem_randomBytes_lt (rand : Nat → Nat) (off n : Nat) :
    ∀ b ∈ randomBytes rand off n, b < 256 := by
  intro b hb
  simp only [randomBytes, List.mem_map, List.mem_range] at hb
  obtain ⟨i, _, rfl⟩ := hb
  exact Nat.mod_lt _ (by norm_num)

theorem length_randomBytes (rand : Nat → Nat) (off n : Nat) :
    (randomBytes rand off n).length = n := by
  simp [randomBytes]

/-! ## Journal encryption operations -/

/-- The record returned by encryptText and stored in the enc field of an
encrypted entry. The iv and salt fields hold base64 text as in the source; the
ciphertext bytes of WebCrypto are opaque, so the model keeps the abstract
ciphertext value in the field the source stores its base64 encoding in. -/
structure EncPayload where
  iv : String
  salt : String
  ciphertext : GcmCiphertext
deriving DecidableEq, Repr

/-- The failure cases of decryptText: a base64 decoding failure of a stored
field, or an AES-GCM authentication failure, which covers both a wrong
passphrase and corrupted data. -/
inductive CryptoError where
  | encodingError
  | decryptionError
deriving DecidableEq, Repr

/-- Model of encryptText from App.jsx: draw a fresh 12-byte iv and a fresh
16-byte salt from the entropy stream, derive the key from the passphrase and
salt, encrypt the encoded plaintext, and base64-encode the stored fields. -/
def encryptText (rand : Nat → Nat) (passphrase plaintext : String) : EncPayload :=
  let iv := randomBytes rand 0 12
  let salt := randomBytes rand 12 16
  let key := deriveKey passphrase salt
  let ct := subtleEncrypt key iv (strToBuf plaintext)
  { iv := bufToB64 iv, salt := bufToB64 salt, ciphertext := ct }

/-- Model of decryptText from App.jsx: decode the stored salt and iv, re-derive
the key from the passphrase and the decoded salt, and decrypt; a decoding
failure or an authentication failure is an error, a thrown exception in the
source. -/
def decryptText (passphrase : String) (payload : EncPayload) :
    Except CryptoError String :=
  match b64ToBuf payload.salt with
  | none => .error .encodingError
  | some salt =>
    match b64ToBuf payload.iv with
    | none => .error .encodingError
    | some iv =>
      match subtleDecrypt (deriveKey passphrase salt) iv payload.ciphertext with
      | some pt => .ok (bufToStr pt)
      | none => .error .decryptionError

/-! ## Journal store -/

/-- A journal entry as constructed by the editor and stored by the journal
context. The note and enc fields are optional, matching fields that may be
absent on the JavaScript object; the encrypted flag is false when absent. -/
structure JournalEntry where
  id : Nat
  date : String
  mood : Option Nat
  moodLabel : Option String
  note : Option String
  tags : List String
  encrypted : Bool
  enc : Option EncPayload
deriving DecidableEq, Repr

/-- The failure thrown by addEntry and decryptNote when an operation that needs
the session passphrase runs while it is empty. -/
inductive JournalError where
  | passphraseRequired
deriving DecidableEq, Repr

/-- Model of addEntry from the JournalProvider in App.jsx: when encryption is
requested, an empty session passphrase fails before any cryptographic work;
otherwise the note is encrypted and the stored payload carries the encrypted
flag, the enc record and no plaintext note. The result is the new entry list;
an error means the list was not updated. -/
def addEntry (passphrase : String) (rand : Nat → Nat) (entries : List JournalEntry)
    (entry : JournalEntry) (encrypt : Bool) : Except JournalError (List JournalEntry) :=
  if encrypt then
    if passphrase = "" then .error .passphraseRequired
    else
      let enc := encryptText rand passphrase (entry.note.getD "")
      let payload : JournalEntry :=
        { entry with note := none, encrypted := true, enc := some enc }
      .ok (entries ++ [payload])
  else
    .ok (entries ++ [entry])

/-- Model of decryptNote from the JournalProvider in App.jsx: a plaintext entry
returns its stored note untouched; an encrypted entry requires a non-empty
passphrase, and any failure inside the decryption attempt, including a missing
enc record, is caught and turned into the placeholder text. -/
def decryptNote (passphrase : String) (entry : JournalEntry) :
    Except JournalError (Option String) :=
  if entry.encrypted = false then .ok entry.note
  else if passphrase = "" then .error .passphraseRequired
  else
    match entry.enc with
    | none => .ok (some "Unable to decrypt")
    | some payload =>
      match decryptText passphrase payload with
      | .ok s => .ok (some s)
      | .error _ => .ok (some "Unable to decrypt")

/-- The mutual-exclusivity invariant of the journal store: an entry marked
encrypted carries no plaintext note and does carry an encrypted payload. -/
def entryInvariant (e : JournalEntry) : Prop :=
  e.encrypted = true → e.note = none ∧ e.enc.isSome = true

/-! ## Backend journal endpoint -/

/-- The request body of POST /journal in backend/index.js. All fields may be
absent; a note field is included to model a client that sends one, although the
handler never reads it. -/
structure JournalPostBody where
  user_id : Option String
  mood : Option Nat
  mood_label : Option String
  tags : Option String
  encrypted : Option Nat
  ciphertext : Option String
  iv : Option String
  salt : Option String
  attachment_url : Option String
  note : Option String
deriving DecidableEq, Repr

/-- The record the handler passes to dao.addJournalEntry: exactly the listed
columns, with no plaintext note column. -/
structure JournalRow where
  id : String
  user_id : String
  mood : Option Nat
  mood_label : Option String
  tags : Option String
  encrypted : Nat
  ciphertext : Option String
  iv : Option String
  salt : Option String
  attachment_url : Option String
deriving DecidableEq, Repr

/-- JavaScript falsiness of an optional string field: absent or empty. -/
def falsyStr : Option String → Bool
  | none => true
  | some s => s = ""

/-- Model of the POST /journal handler in backend/index.js: reject a missing
user id, require the ciphertext, iv and salt fields when the entry is marked
encrypted, and insert exactly the destructured fields; the body is never read
for a plaintext note. -/
def postJournal (newId : String) (body : JournalPostBody) : Except Nat JournalRow :=
  let encrypted := body.encrypted.getD 1
  if falsyStr body.user_id then .error 400
  else if encrypted ≠ 0 ∧ (falsyStr body.ciphertext ∨ falsyStr body.iv ∨ falsyStr body.salt)
    then .error 400
  else
    .ok { id := newId, user_id := body.user_id.getD "", mood := body.mood,
          mood_label := body.mood_label, tags := body.tags, encrypted := encrypted,
          ciphertext := body.ciphertext, iv := body.iv, salt := body.salt,
          attachment_url := body.attachment_url }

/-! ## Helper lemmas for the cipher -/

theorem subtleDecrypt_subtleEncrypt (key : DerivedKey) (iv pt : List Nat) :
    subtleDecrypt key iv (subtleEncrypt key iv pt) = some pt := by
  simp [subtleDecrypt, subtleEncrypt]

theorem subtleDecrypt_wrong_key (s iv pt : List Nat) (k1 k2 : String) (hne : k1 ≠ k2) :
    subtleDecrypt (deriveKey k2 s) iv (subtleEncrypt (deriveKey k1 s) iv pt) = none := by
  simp [subtleDecrypt, subtleEncrypt, deriveKey, hne]

/-! ## Sample values used to instantiate theorems with hypotheses -/

/-- A fixed entropy stream. -/
def sampleRand : Nat → Nat := fun i => i * 7 + 3

/-- A plaintext journal entry as the editor constructs it. -/
def samplePlainEntry : JournalEntry :=
  { id := 1, date := "2024-01-01", mood := some 3, moodLabel := some "Okay",
    note := some "Today I felt okay.", tags := ["gratitude"], encrypted := false,
    enc := none }

/-- The payload of an encryption of the sample note under a sample passphrase. -/
def sampleEncPayload : EncPayload :=
  encryptText sampleRand "correct-horse" "Today I felt okay."

/-- The encrypted entry the store holds for the sample note. -/
def sampleEncEntry : JournalEntry :=
  { samplePlainEntry with note := none, encrypted := true, enc := some sampleEncPayload }

/-- A payload whose stored fields are not valid base64, for exercising the
failure path of the display decryption. -/
def corruptPayload : EncPayload :=
  { iv := "?", salt := "?", ciphertext := subtleEncrypt (deriveKey "k" []) [] [] }

/-- An encrypted entry holding the corrupt payload. -/
def corruptEntry : JournalEntry :=
  { samplePlainEntry with note := none, encrypted := true, enc := some corruptPayload }

/-! ## Claims -/

/-- C1: for every plaintext string and every non-empty passphrase, encrypting
with encryptText, which draws a fresh salt and nonce and derives the key with
deriveKey, and then decrypting the resulting record with decryptText under the
same passphrase returns exactly the original plaintext. -/
theorem encryptText_decryptText_roundtrip (rand : Nat → Nat)
    (passphrase plaintext : String) (hpass : passphrase ≠ "") :
    decryptText passphrase (encryptText rand passphrase plaintext) = .ok plaintext := by
  have hsalt := b64ToBuf_bufToB64 (randomBytes rand 12 16) (mem_randomBytes_lt rand 12 16)
  have hiv := b64ToBuf_bufToB64 (randomBytes rand 0 12) (mem_randomBytes_lt rand 0 12)
  simp only [encryptText, decryptText, hsalt, hiv]
  simp [subtleDecrypt, subtleEncrypt, bufToStr_strToBuf]

theorem encryptText_decryptText_roundtrip_witness :
    decryptText "correct-horse"
      (encryptText sampleRand "correct-horse" "Today I felt okay.") =
      .ok "Today I felt okay." :=
  encryptText_decryptText_roundtrip sampleRand "correct-horse" "Today I felt okay."
    (by decide)

/-- C2: an entry appended by addEntry is either encrypted with no plaintext
note and an encrypted payload, or appended verbatim as a plaintext entry, so
the store invariant that no entry carries both a note and the encrypted flag is
preserved; and the server-side journal handler produces the same row whatever
plaintext note field the request body carries, because it never reads one. -/
theorem addEntry_store_invariant (passphrase : String) (rand : Nat → Nat)
    (entries : List JournalEntry) (entry : JournalEntry) (encrypt : Bool)
    (out : List JournalEntry) (hinv : ∀ e ∈ entries, entryInvariant e)
    (hentry : entry.encrypted = false)
    (hout : addEntry passphrase rand entries entry encrypt = .ok out) :
    (∀ e ∈ out, entryInvariant e) ∧
      ∀ (newId : String) (body : JournalPostBody) (n₁ n₂ : Option String),
        postJournal newId { body with note := n₁ } =
          postJournal newId { body with note := n₂ } := by
  refine ⟨?_, fun newId body n₁ n₂ => rfl⟩
  intro e he
  by_cases hencr : encrypt
  · by_cases hp : passphrase = ""
    · simp [addEntry, hencr, hp] at hout
    · simp [addEntry, hencr, hp] at hout
      subst hout
      rcases List.mem_append.mp he with hmem | hmem
      · exact hinv e hmem
      · simp only [List.mem_singleton] at hmem
        subst hmem
        intro _
        exact ⟨rfl, rfl⟩
  · simp [addEntry, hencr] at hout
    subst hout
    rcases List.mem_append.mp he with hmem | hmem
    · exact hinv e hmem
    · simp only [List.mem_singleton] at hmem
      subst hmem
      intro hcontra
      rw [hentry] at hcontra
      cases hcontra

theorem addEntry_store_invariant_witness :
    (∀ e ∈ [samplePlainEntry], entryInvariant e) ∧
      ∀ (newId : String) (body : JournalPostBody) (n₁ n₂ : Option String),
        postJournal newId { body with note := n₁ } =
          postJournal newId { body with note := n₂ } :=
  addEntry_store_invariant "" sampleRand [] samplePlainEntry false [samplePlainEntry]
    (by simp) rfl rfl

/-- C3: saving with encryption requested while the session passphrase is empty
fails with the passphrase-required error, for every entry and every state of
the store, so nothing is appended and no encryption is performed. -/
theorem addEntry_empty_passphrase_rejected (rand : Nat → Nat)
    (entries : List JournalEntry) (entry : JournalEntry) :
    addEntry "" rand entries entry true = .error .passphraseRequired := by
  simp [addEntry]

/-- C4: decrypting an encryption produced under one passphrase with a different
passphrase fails with the decryption error rather than returning a wrong
plaintext, and the display layer renders that failure as the neutral
placeholder. -/
theorem decryptText_wrong_key (rand : Nat → Nat) (k1 k2 p : String) (hne : k1 ≠ k2) :
    decryptText k2 (encryptText rand k1 p) = .error .decryptionError ∧
    ∀ entry : JournalEntry, entry.encrypted = true →
      entry.enc = some (encryptText rand k1 p) → k2 ≠ "" →
      decryptNote k2 entry = .ok (some "Unable to decrypt") := by
  have hsalt := b64ToBuf_bufToB64 (randomBytes rand 12 16) (mem_randomBytes_lt rand 12 16)
  have hiv := b64ToBuf_bufToB64 (randomBytes rand 0 12) (mem_randomBytes_lt rand 0 12)
  have hdec : decryptText k2 (encryptText rand k1 p) = .error .decryptionError := by
    simp only [encryptText, decryptText, hsalt, hiv]
    rw [subtleDecrypt_wrong_key _ _ _ _ _ hne]
  refine ⟨hdec, ?_⟩
  intro entry henc hfield hk2
  simp [decryptNote, henc, hk2, hfield, hdec]

theorem decryptText_wrong_key_witness :
    decryptText "wrong-pass"
      (encryptText sampleRand "correct-horse" "Today I felt okay.") =
      .error .decryptionError ∧
    ∀ entry : JournalEntry, entry.encrypted = true →
      entry.enc = some (encryptText sampleRand "correct-horse" "Today I felt okay.") →
      "wrong-pass" ≠ "" →
      decryptNote "wrong-pass" entry = .ok (some "Unable to decrypt") :=
  decryptText_wrong_key sampleRand "correct-horse" "wrong-pass" "Today I felt okay."
    (by decide)

/-- C5 counterexample: deriveKey performs no input validation; at the empty
passphrase and a malformed three-byte salt it silently derives a key, and the
whole cipher pipeline encrypts and decrypts under the empty passphrase without
any key-derivation failure, contradicting the claim that derive fails there. -/
theorem deriveKey_no_validation_cex :
    deriveKey "" (List.replicate 3 0) =
      { passphrase := "", salt := List.replicate 3 0, iterations := 100000,
        hash := "SHA-256", bits := 256 } ∧
    decryptText "" (encryptText sampleRand "" "hello") = .ok "hello" :=
  ⟨rfl, rfl⟩

/-- C5 amended: deriveKey never fails; for every passphrase, including the
empty string, and every salt, of any length, it deterministically derives a
256-bit key with the PBKDF2 parameters of the source. The empty-passphrase
rejection is enforced upstream: addEntry and decryptNote fail with the
passphrase-required error before any key derivation. -/
theorem deriveKey_total_guarded_upstream (passphrase : String) (salt : List Nat)
    (rand : Nat → Nat) (entries : List JournalEntry) (entry : JournalEntry) :
    (deriveKey passphrase salt).bits = 256 ∧
    (deriveKey passphrase salt).iterations = 100000 ∧
    addEntry "" rand entries entry true = .error .passphraseRequired ∧
    (entry.encrypted = true → decryptNote "" entry = .error .passphraseRequired) := by
  refine ⟨rfl, rfl, by simp [addEntry], ?_⟩
  intro henc
  simp [decryptNote, henc]

theorem deriveKey_total_guarded_upstream_witness :
    (deriveKey "" (List.replicate 3 0)).bits = 256 ∧
    (deriveKey "" (List.replicate 3 0)).iterations = 100000 ∧
    addEntry "" sampleRand [] sampleEncEntry true = .error .passphraseRequired ∧
    decryptNote "" sampleEncEntry = .error .passphraseRequired := by
  have h := deriveKey_total_guarded_upstream "" (List.replicate 3 0) sampleRand []
    sampleEncEntry
  exact ⟨h.1, h.2.1, h.2.2.1, h.2.2.2 rfl⟩

/-- C6: for an encrypted entry and a non-empty passphrase, the display
decryption never propagates an error: it always returns a value, a missing
payload yields the placeholder, and any failure of decryptText, wrong
passphrase, corrupted ciphertext or malformed encoding alike, yields the
placeholder text. -/
theorem decryptNote_failure_placeholder (passphrase : String) (entry : JournalEntry)
    (henc : entry.encrypted = true) (hpass : passphrase ≠ "") :
    (∃ s, decryptNote passphrase entry = .ok (some s)) ∧
    (entry.enc = none → decryptNote passphrase entry = .ok (some "Unable to decrypt")) ∧
    (∀ payload e, entry.enc = some payload → decryptText passphrase payload = .error e →
      decryptNote passphrase entry = .ok (some "Unable to decrypt")) := by
  refine ⟨?_, ?_, ?_⟩
  · cases hfield : entry.enc with
    | none => exact ⟨"Unable to decrypt", by simp [decryptNote, henc, hpass, hfield]⟩
    | some payload =>
      cases hdec : decryptText passphrase payload with
      | ok s => exact ⟨s, by simp [decryptNote, henc, hpass, hfield, hdec]⟩
      | error e => exact ⟨"Unable to decrypt", by simp [decryptNote, henc, hpass, hfield, hdec]⟩
  · intro hfield
    simp [decryptNote, henc, hpass, hfield]
  · intro payload e hfield hdec
    simp [decryptNote, henc, hpass, hfield, hdec]

theorem decryptNote_failure_placeholder_witness :
    decryptNote "pw" corruptEntry = .ok (some "Unable to decrypt") :=
  (decryptNote_failure_placeholder "pw" corruptEntry rfl (by decide)).2.2
    corruptPayload .encodingError rfl rfl

/-- C7: key derivation is deterministic, the derived key is 256 bits, and the
key a decryption re-derives from the salt stored by encryptText is identical to
the key the encryption used, so the key itself never needs to be stored. -/
theorem deriveKey_deterministic_rederive (passphrase : String) (salt : List Nat)
    (rand : Nat → Nat) (plaintext : String) :
    deriveKey passphrase salt = deriveKey passphrase salt ∧
    (deriveKey passphrase salt).bits = 256 ∧
    ∃ storedSalt,
      b64ToBuf (encryptText rand passphrase plaintext).salt = some storedSalt ∧
      deriveKey passphrase storedSalt = (encryptText rand passphrase plaintext).ciphertext.key := by
  refine ⟨rfl, rfl, randomBytes rand 12 16, ?_, rfl⟩
  exact b64ToBuf_bufToB64 (randomBytes rand 12 16) (mem_randomBytes_lt rand 12 16)

/-- C8: encryptText draws a 12-byte nonce and a 16-byte salt from the entropy
stream, and two encryptions of the same plaintext under the same passphrase
whose nonce draws differ produce payloads with different nonce fields and
different ciphertexts. -/
theorem encryptText_fresh_nonce (k p : String) (r1 r2 : Nat → Nat)
    (hdiff : ∃ i, i < 12 ∧ r1 i % 256 ≠ r2 i % 256) :
    (encryptText r1 k p).iv ≠ (encryptText r2 k p).iv ∧
    (encryptText r1 k p).ciphertext ≠ (encryptText r2 k p).ciphertext ∧
    (∃ iv1, b64ToBuf (encryptText r1 k p).iv = some iv1 ∧ iv1.length = 12) ∧
    (∃ s1, b64ToBuf (encryptText r1 k p).salt = some s1 ∧ s1.length = 16) := by
  obtain ⟨i, hi, hne⟩ := hdiff
  have hlists : randomBytes r1 0 12 ≠ randomBytes r2 0 12 := by
    intro heq
    have := congrArg (fun l => l[i]?) heq
    simp only [randomBytes, List.getElem?_map, List.getElem?_range, hi, if_pos,
      Nat.zero_add, Option.map_some'] at this
    exact hne (Option.some.inj this)
  have hiv1 := b64ToBuf_bufToB64 (randomBytes r1 0 12) (mem_randomBytes_lt r1 0 12)
  have hiv2 := b64ToBuf_bufToB64 (randomBytes r2 0 12) (mem_randomBytes_lt r2 0 12)
  refine ⟨?_, ?_, ?_, ?_⟩
  · intro heq
    simp only [encryptText] at heq
    have hbuf := congrArg b64ToBuf heq
    rw [hiv1, hiv2] at hbuf
    exact hlists (Option.some.inj hbuf)
  · intro heq
    simp only [encryptText, subtleEncrypt] at heq
    exact hlists (congrArg GcmCiphertext.iv heq)
  · exact ⟨randomBytes r1 0 12, hiv1, length_randomBytes r1 0 12⟩
  · exact ⟨randomBytes r1 12 16,
      b64ToBuf_bufToB64 (randomBytes r1 12 16) (mem_randomBytes_lt r1 12 16),
      length_randomBytes r1 12 16⟩

theorem encryptText_fresh_nonce_witness :
    (encryptText (fun _ => 0) "correct-horse" "same text").iv ≠
      (encryptText (fun _ => 1) "correct-horse" "same text").iv ∧
    (encryptText (fun _ => 0) "correct-horse" "same text").ciphertext ≠
      (encryptText (fun _ => 1) "correct-horse" "same text").ciphertext ∧
    (∃ iv1, b64ToBuf (encryptText (fun _ => 0) "correct-horse" "same text").iv = some iv1 ∧
      iv1.length = 12) ∧
    (∃ s1, b64ToBuf (encryptText (fun _ => 0) "correct-horse" "same text").salt = some s1 ∧
      s1.length = 16) :=
  encryptText_fresh_nonce "correct-horse" "same text" (fun _ => 0) (fun _ => 1)
    ⟨0, by decide⟩

/-- C10: for an entry whose encrypted flag is false or absent, decryptNote
returns the stored note field unchanged for every session passphrase, including
the empty one; the passphrase check applies only to encrypted entries. -/
theorem decryptNote_plaintext_passthrough (passphrase : String) (entry : JournalEntry)
    (h : entry.encrypted = false) :
    decryptNote passphrase entry = .ok entry.note := by
  simp [decryptNote, h]

theorem decryptNote_plaintext_passthrough_witness :
    decryptNote "" samplePlainEntry = .ok samplePlainEntry.note :=
  decryptNote_plaintext_passthrough "" samplePlainEntry rfl

end MentalHealth
